import Mathlib

/-!
Verification development for the ZDNet article-notification pipeline
(src/main.py).  The source is shallowly embedded: Python datetimes become
either explicit calendar records (`PyDateTime`, for parsing claims) or
minutes on an absolute timeline (`Int`, for the 24-hour-window arithmetic,
Python datetime comparison being chronological); network calls (listing
fetch, detail fetch, translation, Telegram dispatch) become oracle
parameters, a fetch failure being an `Except.error` / `none`; the JSON
storage file becomes an explicit `JValue` with `Except` for unparsable
bytes; regular-expression work in the source is embedded as explicit
character-list scanners that implement the same leftmost-match semantics.
-/

/-! ## JSON values and the deduplication storage (src/main.py lines 63-78) -/

/-- A parsed JSON document, as `json.load` would produce it. -/
inductive JValue where
  | jnull : JValue
  | jbool : Bool → JValue
  | jnum : Int → JValue
  | jstr : String → JValue
  | jarr : List JValue → JValue
  | jobj : List (String × JValue) → JValue

/-- Embedding of `load_sent_storage` (src/main.py lines 63-73).  The argument
is the observable state of the storage file: `none` when the file does not
exist, `some (Except.error msg)` when opening or `json.load` raises, and
`some (Except.ok v)` when the file parses to the JSON value `v`.  The store
itself is the association list of the JSON object's entries.  Only a JSON
object (`isinstance(data, dict)`) is accepted; every other parse result, and
every failure, yields the empty store. -/
def load_sent_storage (file : Option (Except String JValue)) : List (String × JValue) :=
  match file with
  | none => []
  | some (Except.error _) => []
  | some (Except.ok (JValue.jobj kvs)) => kvs
  | some (Except.ok _) => []

/-- Membership test `url in sent_storage` on the embedded store. -/
def hasKey (sent : List (String × JValue)) (u : String) : Bool :=
  sent.any (fun kv => kv.1 == u)

/-- All prefixes of a payload, shortest first: the on-disk contents a stream
write can have been interrupted at. -/
def prefixesUpTo (l : List Char) : List (List Char) :=
  (List.range (l.length + 1)).map (fun k => l.take k)

/-- Embedding of `save_sent_storage` (src/main.py lines 76-78) as the sequence
of observable on-disk contents of the storage file.  The code runs
`open(STORAGE_PATH, "w")` followed by `json.dump`: the open truncates the file
at once, and the dump then streams the serialized payload, so the file holds
the old content before the call and some (possibly empty) prefix of the new
payload from the open onward.  Serialization itself is abstracted: `payload`
is the serialized text. -/
def save_sent_storage_states (old payload : List Char) : List (List Char) :=
  old :: prefixesUpTo payload

/-- Modelled from the spec: the write-to-a-temporary-location-then-atomically-
replace discipline of section 4.4/5, under which the storage file only ever
holds the prior content or the full new payload.  Declared for comparison with
`save_sent_storage_states`; it embeds no code of src/main.py. -/
def spec_atomic_replace_states (old payload : List Char) : List (List Char) :=
  [old, payload]

/-! ## The recency filter (src/main.py lines 81-90) -/

/-- Embedding of `is_within_last_24h` (src/main.py lines 81-90).  Timestamps
are minutes on an absolute timeline; `now_local` is the value the code
computes as `datetime.utcnow() + timedelta(hours=9)`, passed explicitly.
`timedelta(hours=24)` is 1440 minutes. -/
def is_within_last_24h (dt : Option Int) (now_local : Int) : Bool :=
  match dt with
  | none => false
  | some d =>
    let cutoff := now_local - 1440
    decide (cutoff ≤ d) && decide (d ≤ now_local)

/-! ## Python datetimes (calendar records) -/

/-- A value `datetime.strptime` can return at minute precision. -/
structure PyDateTime where
  year : Nat
  month : Nat
  day : Nat
  hour : Nat
  minute : Nat
deriving DecidableEq, Repr

/-- Gregorian leap-year rule, as Python's calendar uses it. -/
def isLeap (y : Nat) : Bool :=
  (y % 4 == 0 && y % 100 != 0) || y % 400 == 0

/-- Days in a month of the proleptic Gregorian calendar. -/
def daysInMonth (y m : Nat) : Nat :=
  if m == 2 then (if isLeap y then 29 else 28)
  else if m == 4 || m == 6 || m == 9 || m == 11 then 30
  else 31

/-- The calendar validation `datetime.strptime` performs on parsed fields:
year in 1..9999, month in 1..12, day within the month, hour below 24 and
minute below 60; out-of-range fields raise `ValueError`, embedded as `none`. -/
def mkValidDatetime (y mo d h mi : Nat) : Option PyDateTime :=
  if 1 ≤ y ∧ y ≤ 9999 ∧ 1 ≤ mo ∧ mo ≤ 12 ∧ 1 ≤ d ∧ d ≤ daysInMonth y mo
      ∧ h ≤ 23 ∧ mi ≤ 59 then
    some ⟨y, mo, d, h, mi⟩
  else
    none

/-- Leap days strictly before year `y` (proleptic Gregorian). -/
def leapsBefore (y : Nat) : Nat :=
  (y - 1) / 4 - (y - 1) / 100 + (y - 1) / 400

/-- Days in year `y` strictly before month `m`. -/
def daysBeforeMonth (y m : Nat) : Nat :=
  ((List.range (m - 1)).map (fun i => daysInMonth y (i + 1))).sum

/-- A `PyDateTime` as minutes on the absolute timeline.  Python compares and
subtracts naive datetimes chronologically; this is the chronological
embedding used when a parsed timestamp meets `is_within_last_24h`. -/
def dtToMin (dt : PyDateTime) : Int :=
  (((365 * (dt.year - 1) + leapsBefore dt.year + daysBeforeMonth dt.year dt.month
      + (dt.day - 1)) * 1440 + dt.hour * 60 + dt.minute : Nat) : Int)

/-! ## Character-level scanners for the source's regular expressions

The source uses `re` patterns built from `\d{n}`, literal separators, `\s+`,
`\s*`, `:?` and a trailing `.*$`.  Each is embedded over `List Char`.  Because
every `\s+`/`\s*` here is followed by a digit or a literal that is not
whitespace, greedy maximal munch is equivalent to the backtracking semantics,
so the scanners below consume whitespace maximally.  Whitespace is
`Char.isWhitespace` (the inputs of interest are ASCII). -/

/-- Consume exactly `n` digits, accumulating their value. -/
def chompDigits : Nat → Nat → List Char → Option (Nat × List Char)
  | 0, acc, cs => some (acc, cs)
  | _ + 1, _, [] => none
  | n + 1, acc, c :: cs =>
    if c.isDigit then chompDigits n (acc * 10 + (c.toNat - 48)) cs else none

/-- Drop a maximal (possibly empty) run of whitespace: the `\s*` of the
source's patterns. -/
def dropWsL : List Char → List Char
  | [] => []
  | c :: cs => if c.isWhitespace then dropWsL cs else c :: cs

/-- Consume a maximal run of at least one whitespace character: `\s+`. -/
def chompWs1 (cs : List Char) : Option (List Char) :=
  match cs with
  | [] => none
  | c :: rest => if c.isWhitespace then some (dropWsL rest) else none

/-- Match `\d{4}<sep>\d{2}<sep>\d{2}\s+\d{2}:\d{2}` at the head of the input,
returning the five numeric fields and the unconsumed remainder.  With
`sep := '-'` this is the date pattern of the Japanese source (src/main.py
lines 160, 218, 222), with `sep := '/'` that of the Korean source (lines
311, 315). -/
def matchStampAt (sep : Char) (cs : List Char) : Option ((Nat × Nat × Nat × Nat × Nat) × List Char) :=
  match chompDigits 4 0 cs with
  | none => none
  | some (y, cs1) =>
    match cs1 with
    | [] => none
    | c1 :: cs2 =>
      if c1 == sep then
        match chompDigits 2 0 cs2 with
        | none => none
        | some (mo, cs3) =>
          match cs3 with
          | [] => none
          | c2 :: cs4 =>
            if c2 == sep then
              match chompDigits 2 0 cs4 with
              | none => none
              | some (d, cs5) =>
                match chompWs1 cs5 with
                | none => none
                | some cs6 =>
                  match chompDigits 2 0 cs6 with
                  | none => none
                  | some (h, cs7) =>
                    match cs7 with
                    | ':' :: cs8 =>
                      match chompDigits 2 0 cs8 with
                      | none => none
                      | some (mi, cs9) => some ((y, mo, d, h, mi), cs9)
                    | _ => none
            else none
      else none

/-- Leftmost occurrence of the date pattern anywhere in the input:
`re.search` for `\d{4}<sep>\d{2}<sep>\d{2}\s+\d{2}:\d{2}`. -/
def scanStamp (sep : Char) : List Char → Option (Nat × Nat × Nat × Nat × Nat)
  | [] => none
  | c :: rest =>
    match matchStampAt sep (c :: rest) with
    | some (v, _) => some v
    | none => scanStamp sep rest

/-! ## Japanese title cleaning (src/main.py lines 154-161) -/

/-- Drop a single trailing newline, if present: where `$` may match without
`re.MULTILINE`. -/
def dropLastNl : List Char → List Char
  | [] => []
  | [c] => if c == '\n' then [] else [c]
  | c :: rest => c :: dropLastNl rest

/-- Whether `.*$` matches the whole remainder: `.` does not cross a newline,
and `$` matches at the end of the string or just before one final newline, so
the remainder may contain no newline other than a single trailing one. -/
def tailRunsToEnd (cs : List Char) : Bool :=
  (dropLastNl cs).all (fun c => !(c == '\n'))

/-- Whether the pattern `\s+\d{4}-\d{2}-\d{2}\s+\d{2}:\d{2}.*$` of
`clean_title_jp` matches at the head of the input. -/
def jpSuffixAt (cs : List Char) : Bool :=
  match chompWs1 cs with
  | none => false
  | some cs1 =>
    match matchStampAt '-' cs1 with
    | none => false
    | some (_, rest) => tailRunsToEnd rest

/-- Characters before the leftmost match of the suffix pattern (everything
from the match on is substituted away), or the whole input when it never
matches: `re.sub(pattern, "", raw)`. -/
def cleanAux : List Char → List Char
  | [] => []
  | c :: rest => if jpSuffixAt (c :: rest) then [] else c :: cleanAux rest

/-- Python's `str.strip()`: remove whitespace from both ends. -/
def stripChars (cs : List Char) : List Char :=
  ((dropWsL cs).reverse |> dropWsL).reverse

/-- Embedding of `clean_title_jp` (src/main.py lines 154-161): substitute the
trailing date/time pattern away, then `strip()`.  (When the leftmost match is
followed by a lone kept newline in Python, both embeddings strip to the same
text, the prefix before the match ending in a non-whitespace character.) -/
def clean_title_jp (raw : String) : String :=
  if raw == "" then "" else String.mk (stripChars (cleanAux raw.toList))

/-! ## Detail-page date resolution (src/main.py lines 206-231 and 298-324) -/

/-- Embedding of `fetch_published_at_jp` (src/main.py lines 206-231).  The
argument is the outcome of fetching the article page: `none` when
`fetch_html` raises (logged and swallowed), otherwise the page's text nodes
in document order.  `soup.find(string=re.compile(...))` picks the first node
containing the date pattern, `re.search` extracts its leftmost occurrence,
and `datetime.strptime` validates the calendar fields. -/
def fetch_published_at_jp (page : Option (List String)) : Option PyDateTime :=
  match page with
  | none => none
  | some nodes =>
    match nodes.find? (fun s => (scanStamp '-' s.toList).isSome) with
    | none => none
    | some node =>
      match scanStamp '-' node.toList with
      | none => none
      | some (y, mo, d, h, mi) => mkValidDatetime y mo d h mi

/-- Match the Korean byline pattern `입력\s*:?\s*\d{4}/\d{2}/\d{2}\s+\d{2}:\d{2}`
at the head of the input, returning the captured date fields. -/
def matchKrAt (cs : List Char) : Option (Nat × Nat × Nat × Nat × Nat) :=
  match cs with
  | '입' :: '력' :: rest =>
    let r1 := dropWsL rest
    let r2 := match r1 with
      | ':' :: t => dropWsL t
      | _ => r1
    match matchStampAt '/' r2 with
    | some (v, _) => some v
    | none => none
  | _ => none

/-- Leftmost occurrence of the Korean byline pattern anywhere in the input. -/
def scanKrStamp : List Char → Option (Nat × Nat × Nat × Nat × Nat)
  | [] => none
  | c :: rest =>
    match matchKrAt (c :: rest) with
    | some v => some v
    | none => scanKrStamp rest

/-- Embedding of `fetch_published_at_kr` (src/main.py lines 298-324): find the
first text node carrying the `입력` byline, extract the first (input, not
수정/modified) date after the marker, and validate it as a datetime. -/
def fetch_published_at_kr (page : Option (List String)) : Option PyDateTime :=
  match page with
  | none => none
  | some nodes =>
    match nodes.find? (fun s => (scanKrStamp s.toList).isSome) with
    | none => none
    | some node =>
      match scanKrStamp node.toList with
      | none => none
      | some (y, mo, d, h, mi) => mkValidDatetime y mo d h mi

/-! ## Parsed documents and section extraction (src/main.py lines 164-203, 258-295)

A listing page is embedded as the sequence of sibling tags at the level of
the section heading (what `header.find_next_siblings()` iterates), each tag
carrying its name, its `get_text` text, and all its descendant anchors that
have an `href`, in document order. -/

/-- An `<a href=...>` element: its stripped visible text and its `href`. -/
structure Anchor where
  text : String
  href : String
deriving DecidableEq, Repr

/-- A sibling element of the parsed listing page. -/
structure Tag where
  name : String
  text : String
  anchors : List Anchor
deriving DecidableEq, Repr

/-- A candidate-article record as the source builds it: the per-source dicts
of lines 194-201 and 287-293 share this shape, unused keys being `none`. -/
structure Item where
  source : String
  title_ja_raw : Option String
  title_ja : Option String
  title_ko : Option String
  url : String
  published_at : Option PyDateTime
deriving DecidableEq, Repr

/-- Substring test, Python's `needle in hay` on text. -/
def hasSubAux (needle : List Char) : List Char → Bool
  | [] => needle.isEmpty
  | c :: rest => needle.isPrefixOf (c :: rest) || hasSubAux needle rest

/-- Whether `needle` occurs in `hay`. -/
def containsSub (hay needle : String) : Bool :=
  hasSubAux needle.toList hay.toList

/-- The Japanese section-start predicate (src/main.py lines 171-174): an
`h2`/`h3` whose text starts with `新着` (`str.startswith`, embedded as a
character-list prefix test). -/
def jpHeaderPred (t : Tag) : Bool :=
  (t.name == "h2" || t.name == "h3") && "新着".toList.isPrefixOf t.text.toList

/-- The Japanese section-stop predicate (src/main.py line 183): any following
`h2`/`h3` sibling ends the section. -/
def jpStopPred (t : Tag) : Bool :=
  t.name == "h2" || t.name == "h3"

/-- The Korean section-start predicate (src/main.py lines 264-267): an
`h2`/`h3` containing `인공지능 최신뉴스`. -/
def krHeaderPred (t : Tag) : Bool :=
  (t.name == "h2" || t.name == "h3") && containsSub t.text "인공지능 최신뉴스"

/-- The Korean section-stop predicate (src/main.py line 276): an `h2`/`h3`
containing `지금 뜨는 기사`. -/
def krStopPred (t : Tag) : Bool :=
  (t.name == "h2" || t.name == "h3") && containsSub t.text "지금 뜨는 기사"

/-- `soup.find(predicate)` followed by `find_next_siblings()`: the siblings
after the first tag matching `p`, or `none` when no tag matches. -/
def findAfter (p : Tag → Bool) : List Tag → Option (List Tag)
  | [] => none
  | t :: rest => if p t then some rest else findAfter p rest

/-- The Japanese per-anchor acceptance of src/main.py lines 186-201: skip an
anchor whose text is empty or shorter than 8 characters, otherwise build the
candidate dict, the url resolved by `urljoin` (passed as the oracle `uj`). -/
def jpAnchorItem (base : String) (uj : String → String → String) (a : Anchor) : Option Item :=
  if a.text == "" then none
  else if a.text.length < 8 then none
  else some { source := "zdnet_jp", title_ja_raw := some a.text,
              title_ja := some (clean_title_jp a.text), title_ko := none,
              url := uj base a.href, published_at := none }

/-- The Korean per-anchor acceptance of src/main.py lines 279-293: skip an
anchor whose href lacks the list-detail pattern `/view/?no=` or whose text is
empty, otherwise build the candidate dict. -/
def krAnchorItem (base : String) (uj : String → String → String) (a : Anchor) : Option Item :=
  if !(containsSub a.href "/view/?no=") then none
  else if a.text == "" then none
  else some { source := "zdnet_kr_ai", title_ja_raw := none, title_ja := none,
              title_ko := some a.text, url := uj base a.href, published_at := none }

/-- The sibling loop shared by both extractors (src/main.py lines 182-201 and
275-293): walk the siblings after the header, stop at the first tag matching
the stop predicate, and keep the accepted anchors of every tag before it. -/
def sectionLoop (stopP : Tag → Bool) (mk : Anchor → Option Item) : List Tag → List Item
  | [] => []
  | t :: rest =>
    if stopP t then [] else t.anchors.filterMap mk ++ sectionLoop stopP mk rest

/-- Embedding of `extract_new_articles_jp_list` (src/main.py lines 164-203). -/
def extract_new_articles_jp_list (doc : List Tag) (base : String)
    (uj : String → String → String) : List Item :=
  match findAfter jpHeaderPred doc with
  | none => []
  | some rest => sectionLoop jpStopPred (jpAnchorItem base uj) rest

/-- Embedding of `extract_new_articles_kr_ai_list` (src/main.py lines 258-295). -/
def extract_new_articles_kr_ai_list (doc : List Tag) (base : String)
    (uj : String → String → String) : List Item :=
  match findAfter krHeaderPred doc with
  | none => []
  | some rest => sectionLoop krStopPred (krAnchorItem base uj) rest

/-- All anchors of a sibling sequence, in document order. -/
def anchorsOf : List Tag → List Anchor
  | [] => []
  | t :: rest => t.anchors ++ anchorsOf rest

/-- Modelled from the spec (section 4.1's contract): the anchors found in the
siblings strictly between the element matching the start predicate and the
first subsequent element matching the stop predicate, or the end of the
document when none matches.  Declared for comparison with the extractors; it
embeds no code of src/main.py. -/
def sectionAnchors (startP stopP : Tag → Bool) (doc : List Tag) : List Anchor :=
  match findAfter startP doc with
  | none => []
  | some rest => anchorsOf (rest.takeWhile (fun t => !stopP t))

/-! ## Per-source collection (src/main.py lines 234-252 and 327-345) -/

/-- The per-candidate loop shared by `collect_recent_articles_jp` (lines
240-249) and `collect_recent_articles_kr_ai` (lines 333-342): resolve each
candidate's publication time from its detail page, skip it when resolution
fails (logged), record the time on the item, and keep it only when inside the
24-hour window. -/
def keepRecent (fetchPub : String → Option PyDateTime) (now_local : Int)
    (items : List Item) : List Item :=
  items.filterMap (fun it =>
    match fetchPub it.url with
    | none => none
    | some dt =>
      let it1 := { it with published_at := some dt }
      if is_within_last_24h (some (dtToMin dt)) now_local then some it1 else none)

/-- Embedding of `collect_recent_articles_jp` (src/main.py lines 234-252).
`listing` is the outcome of the listing-page `fetch_html` call of line 236:
it is not wrapped in any try/except, so a failure propagates out of the
function (`Except.error`).  `detail` is the detail-page fetch oracle. -/
def collect_recent_articles_jp (listing : Except String (List Tag))
    (detail : String → Option (List String)) (base : String)
    (uj : String → String → String) (now_local : Int) : Except String (List Item) :=
  match listing with
  | Except.error e => Except.error e
  | Except.ok doc =>
    Except.ok (keepRecent (fun u => fetch_published_at_jp (detail u)) now_local
      (extract_new_articles_jp_list doc base uj))

/-- Embedding of `collect_recent_articles_kr_ai` (src/main.py lines 327-345);
the listing fetch of line 329 is likewise unguarded. -/
def collect_recent_articles_kr_ai (listing : Except String (List Tag))
    (detail : String → Option (List String)) (base : String)
    (uj : String → String → String) (now_local : Int) : Except String (List Item) :=
  match listing with
  | Except.error e => Except.error e
  | Except.ok doc =>
    Except.ok (keepRecent (fun u => fetch_published_at_kr (detail u)) now_local
      (extract_new_articles_kr_ai_list doc base uj))

/-! ## Translation, dispatch, deduplication and the main run
(src/main.py lines 93-101, 134-148, 351-393) -/

/-- Embedding of `translate_title_ja_to_ko` (src/main.py lines 93-101): `None`
or empty input yields `None`; otherwise the translation oracle answers, its
failure (a raised provider error, logged and swallowed) being `none`. -/
def translate_title_ja_to_ko (oracle : String → Option String) (text_ja : Option String) :
    Option String :=
  match text_ja with
  | none => none
  | some s => if s == "" then none else oracle s

/-- Embedding of `send_to_telegram` (src/main.py lines 134-148): every item is
posted in order; a non-ok response or a raised transport error is printed and
swallowed, so the function always returns.  The oracle `dis` gives each
item's delivery outcome; the result records them. -/
def send_to_telegram (dis : Item → Bool) (items : List Item) : List (Item × Bool) :=
  items.map (fun it => (it, dis it))

/-- Embedding of the deduplication/translation loop of `main` (src/main.py
lines 366-380): walk the merged candidates; skip an item whose url is already
in the store; otherwise translate Japanese titles, record the url in the
in-memory store with the current time's ISO string, and append the item to
the batch. -/
def dedupStep (tr : String → Option String) (nowIso : String) :
    List (String × JValue) → List Item → List (String × JValue) × List Item
  | sent, [] => (sent, [])
  | sent, it :: rest =>
    if hasKey sent it.url then dedupStep tr nowIso sent rest
    else
      let it1 := if it.source == "zdnet_jp" then
          { it with title_ko := translate_title_ja_to_ko tr it.title_ja }
        else it
      let res := dedupStep tr nowIso (sent ++ [(it.url, JValue.jstr nowIso)]) rest
      (res.1, it1 :: res.2)

/-- The oracles and initial state of one run of `main`. -/
structure MainEnv where
  storedFile : Option (Except String JValue)
  jpListing : Except String (List Tag)
  jpDetail : String → Option (List String)
  krListing : Except String (List Tag)
  krDetail : String → Option (List String)
  jpBase : String
  krBase : String
  uj : String → String → String
  now_local : Int
  translate : String → Option String
  nowIso : String
  dispatchOk : Item → Bool

/-- What a completed run leaves behind: the per-item dispatch outcomes, and
the store contents written by `save_sent_storage`, `none` when the early
return of line 384-386 skipped both dispatch and save. -/
structure RunResult where
  dispatched : List (Item × Bool)
  savedFile : Option (List (String × JValue))

/-- Embedding of `main` (src/main.py lines 351-393) from `load_sent_storage`
on: collect both sources (an uncaught listing-fetch failure aborts the whole
run), merge, deduplicate and translate, return early when nothing is new,
otherwise dispatch the batch and save the store once afterwards.
`ensure_config` is modeled as having passed (the claims concern configured
runs). -/
def mainModel (env : MainEnv) : Except String RunResult :=
  let sent0 := load_sent_storage env.storedFile
  match collect_recent_articles_jp env.jpListing env.jpDetail env.jpBase env.uj env.now_local with
  | Except.error e => Except.error e
  | Except.ok jp =>
    match collect_recent_articles_kr_ai env.krListing env.krDetail env.krBase env.uj env.now_local with
    | Except.error e => Except.error e
    | Except.ok kr =>
      let pr := dedupStep env.translate env.nowIso sent0 (jp ++ kr)
      if pr.2.isEmpty then Except.ok { dispatched := [], savedFile := none }
      else Except.ok { dispatched := send_to_telegram env.dispatchOk pr.2,
                       savedFile := some pr.1 }

/-- The store file a run persisted, `none` when the run aborted or skipped the
save. -/
def persistedOf : Except String RunResult → Option (List (String × JValue))
  | Except.ok r => r.savedFile
  | Except.error _ => none

/-- The urls of the batch a run handed to the dispatcher, in order. -/
def dispatchedUrls : Except String RunResult → List String
  | Except.ok r => r.dispatched.map (fun p => p.1.url)
  | Except.error _ => []

/-- The storage discipline `main` actually follows, relative to the store
`old` it loaded: when the run completed without saving, nothing was
dispatched; when it saved, the persisted keys are exactly the loaded keys
followed by the urls of every dispatched item, delivered or not. -/
def runStoreOk (old : List (String × JValue)) : Except String RunResult → Prop
  | Except.error _ => True
  | Except.ok r =>
    match r.savedFile with
    | none => r.dispatched = []
    | some s => s.map Prod.fst = old.map Prod.fst ++ r.dispatched.map (fun p => p.1.url)

/-! ## Concrete fixtures used by the claim theorems -/

/-- A Korean listing document with one valid candidate in the bounded section. -/
def docKrOne : List Tag :=
  [⟨"h2", "인공지능 최신뉴스", []⟩,
   ⟨"div", "", [⟨"AI 뉴스 기사 하나", "/view/?no=1"⟩]⟩]

/-- A Korean article page carrying the byline of the spec's test vector. -/
def krPageOne : List String :=
  ["기사 본문 입력 :2025/11/14 17:46    수정: 2025/11/14 17:48 끝"]

/-- The candidate `docKrOne` and `krPageOne` produce. -/
def itemKrOne : Item :=
  { source := "zdnet_kr_ai", title_ja_raw := none, title_ja := none,
    title_ko := some "AI 뉴스 기사 하나", url := "http://kr/view/?no=1",
    published_at := some ⟨2025, 11, 14, 17, 46⟩ }

/-- A run in which the only new article's dispatch fails (`dispatchOk` is
constantly false): the store starts empty, the Japanese listing is an empty
document, and the Korean source yields `itemKrOne`, in-window at the run's
reference time. -/
def envC1 : MainEnv :=
  { storedFile := none
    jpListing := Except.ok []
    jpDetail := fun _ => none
    krListing := Except.ok docKrOne
    krDetail := fun _ => some krPageOne
    jpBase := ""
    krBase := "http://kr"
    uj := fun b h => b ++ h
    now_local := dtToMin ⟨2025, 11, 14, 17, 46⟩
    translate := fun _ => none
    nowIso := "2025-11-14T08:46:00"
    dispatchOk := fun _ => false }

/-- The same run, but the Japanese listing fetch fails and dispatch would
succeed. -/
def envC2 : MainEnv :=
  { envC1 with jpListing := Except.error "boom", dispatchOk := fun _ => true }

/-- A Japanese listing document with one candidate whose anchor text ends in
the inline date/time suffix. -/
def docJpOne : List Tag :=
  [⟨"h2", "新着記事", []⟩,
   ⟨"ul", "", [⟨"Some Title 2025-11-16 08:00", "/article/35100001/"⟩]⟩]

/-- A Japanese article page whose body carries a different timestamp than the
anchor suffix of `docJpOne`. -/
def jpPageLate : List String := ["公開: 2025-11-20 09:30 更新"]

/-- The candidate `docJpOne` and `jpPageLate` produce: the cleaned title keeps
the anchor prefix, the timestamp comes from the page. -/
def itemJpOne : Item :=
  { source := "zdnet_jp", title_ja_raw := some "Some Title 2025-11-16 08:00",
    title_ja := some "Some Title", title_ko := none, url := "/article/35100001/",
    published_at := some ⟨2025, 11, 20, 9, 30⟩ }

/-- The spec's section-extraction test document: a start heading, two anchors,
a stop heading, a further anchor. -/
def docC6 : List Tag :=
  [⟨"h2", "新着記事一覧", []⟩,
   ⟨"ul", "", [⟨"Article One Title", "/a1"⟩, ⟨"Article Two Title", "/a2"⟩]⟩,
   ⟨"h2", "開発", []⟩,
   ⟨"ul", "", [⟨"Article Three Title", "/b1"⟩]⟩]

/-- A section whose bounded region holds one anchor with a short (decorative)
text and one normal anchor. -/
def docC6x : List Tag :=
  [⟨"h2", "新着一覧", []⟩,
   ⟨"div", "", [⟨"tiny", "/a1"⟩, ⟨"Long Enough Title", "/a2"⟩]⟩,
   ⟨"h2", "次", []⟩]

/-! ## Helper lemmas -/

/-- The sibling loop of both extractors collects exactly the accepted anchors
of the siblings before the first stop tag. -/
theorem sectionLoop_eq_anchors (stopP : Tag → Bool) (mk : Anchor → Option Item) :
    ∀ rest : List Tag,
      sectionLoop stopP mk rest
        = (anchorsOf (rest.takeWhile (fun t => !stopP t))).filterMap mk := by
  intro rest
  induction rest with
  | nil => rfl
  | cons t rs ih =>
    cases h : stopP t with
    | true => simp [sectionLoop, h, anchorsOf]
    | false => simp [sectionLoop, h, anchorsOf, List.filterMap_append, ih]

/-- Translating a Japanese item's title leaves its url unchanged. -/
theorem dedup_item_url (tr : String → Option String) (it : Item) :
    (if it.source == "zdnet_jp" then
        { it with title_ko := translate_title_ja_to_ko tr it.title_ja }
      else it).url = it.url := by
  split <;> rfl

/-- The deduplication loop's final in-memory store lists the loaded keys
followed by the urls of the accepted batch, in order. -/
theorem dedupStep_keys (tr : String → Option String) (nowIso : String) :
    ∀ (items : List Item) (sent : List (String × JValue)),
      (dedupStep tr nowIso sent items).1.map Prod.fst
        = sent.map Prod.fst ++ (dedupStep tr nowIso sent items).2.map Item.url := by
  intro items
  induction items with
  | nil => intro sent; simp [dedupStep]
  | cons it rest ih =>
    intro sent
    cases h : hasKey sent it.url with
    | true => simp [dedupStep, h, ih sent]
    | false =>
      have hk := ih (sent ++ [(it.url, JValue.jstr nowIso)])
      simp [dedupStep, h, hk]
      split <;> rfl

/-- Adding an entry can only grow key membership. -/
theorem hasKey_append_false (sent : List (String × JValue)) (x : String × JValue)
    (u : String) : hasKey (sent ++ [x]) u = false → hasKey sent u = false := by
  simp [hasKey, List.any_append]
  intro h _
  exact h

/-- Urls of the accepted batch are pairwise distinct and absent from the store
the loop started with. -/
theorem dedupStep_fresh (tr : String → Option String) (nowIso : String) :
    ∀ (items : List Item) (sent : List (String × JValue)),
      ((dedupStep tr nowIso sent items).2.map Item.url).Nodup
        ∧ ∀ u ∈ (dedupStep tr nowIso sent items).2.map Item.url,
            hasKey sent u = false := by
  intro items
  induction items with
  | nil => intro sent; simp [dedupStep]
  | cons it rest ih =>
    intro sent
    cases h : hasKey sent it.url with
    | true =>
      constructor
      · simpa [dedupStep, h] using (ih sent).1
      · intro u hu
        refine (ih sent).2 u ?_
        simpa [dedupStep, h] using hu
    | false =>
      have ih1 := ih (sent ++ [(it.url, JValue.jstr nowIso)])
      have hmem : hasKey (sent ++ [(it.url, JValue.jstr nowIso)]) it.url = true := by
        simp [hasKey]
      have hnotin : it.url ∉
          (dedupStep tr nowIso (sent ++ [(it.url, JValue.jstr nowIso)]) rest).2.map Item.url := by
        intro hin
        have hfalse := ih1.2 it.url hin
        rw [hmem] at hfalse
        cases hfalse
      have hstep : dedupStep tr nowIso sent (it :: rest)
          = ((dedupStep tr nowIso (sent ++ [(it.url, JValue.jstr nowIso)]) rest).1,
             (if it.source == "zdnet_jp" then
                { it with title_ko := translate_title_ja_to_ko tr it.title_ja }
              else it)
               :: (dedupStep tr nowIso (sent ++ [(it.url, JValue.jstr nowIso)]) rest).2) := by
        simp only [dedupStep, h]
        rw [if_neg Bool.false_ne_true]
      constructor
      · rw [hstep, List.map_cons, List.nodup_cons, dedup_item_url]
        exact ⟨hnotin, ih1.1⟩
      · intro u hu
        rw [hstep] at hu
        simp only [List.map_cons, List.mem_cons, dedup_item_url] at hu
        rcases hu with hu | hu
        · rw [hu]
          exact h
        · exact hasKey_append_false sent _ u (ih1.2 u hu)

/-- Dispatch outcomes do not change which urls the batch carries. -/
theorem send_to_telegram_urls (dis : Item → Bool) (items : List Item) :
    (send_to_telegram dis items).map (fun p => p.1.url) = items.map Item.url := by
  simp [send_to_telegram, List.map_map]

/-- Every take of a list is one of its prefixes. -/
theorem take_isPrefixOf_self (l : List Char) :
    ∀ k, (l.take k).isPrefixOf l = true := by
  induction l with
  | nil => intro k; simp [List.isPrefixOf]
  | cons a t ih =>
    intro k
    cases k with
    | zero => rfl
    | succ k => simp [List.take_succ_cons, List.isPrefixOf, ih]

/-! ## The claims -/

/-- Claim C1, corrected at this input: a run in which the only new article's
Telegram dispatch fails (`dispatchOk` constantly false) still writes that
article's url into the persisted store — `send_to_telegram` swallows the
failure, and `main` saves the store unconditionally afterwards, so a url
whose dispatch did not succeed is written and will be silently skipped on
later runs. -/
theorem claim_C1_counterexample :
    mainModel envC1 = Except.ok ⟨[(itemKrOne, false)],
      some [("http://kr/view/?no=1", JValue.jstr "2025-11-14T08:46:00")]⟩ := rfl

/-- Claim C1 as amended: persistence happens once, after the whole batch's
dispatch has been attempted, and the persisted store does not depend on the
dispatch outcomes at all — every url handed to the dispatcher is persisted
(the loaded keys followed by the batch's urls), delivered or not, and when
nothing was dispatched nothing is saved. -/
theorem claim_C1_amended :
    (∀ (env : MainEnv) (f g : Item → Bool),
        persistedOf (mainModel { env with dispatchOk := f })
          = persistedOf (mainModel { env with dispatchOk := g }))
    ∧ (∀ env : MainEnv, runStoreOk (load_sent_storage env.storedFile) (mainModel env)) := by
  constructor
  · intro env f g
    obtain ⟨sf, jl, jd, kl, kd, jb, kb, uj, nl, tr, ni, dis⟩ := env
    cases hjp : collect_recent_articles_jp jl jd jb uj nl with
    | error e => simp [mainModel, persistedOf, hjp]
    | ok jp =>
      cases hkr : collect_recent_articles_kr_ai kl kd kb uj nl with
      | error e => simp [mainModel, persistedOf, hjp, hkr]
      | ok kr =>
        cases h : (dedupStep tr ni (load_sent_storage sf) (jp ++ kr)).2.isEmpty with
        | true => simp [mainModel, persistedOf, hjp, hkr, h]
        | false => simp [mainModel, persistedOf, hjp, hkr, h]
  · intro env
    cases hjp : collect_recent_articles_jp env.jpListing env.jpDetail env.jpBase env.uj env.now_local with
    | error e => simp [mainModel, runStoreOk, hjp]
    | ok jp =>
      cases hkr : collect_recent_articles_kr_ai env.krListing env.krDetail env.krBase env.uj env.now_local with
      | error e => simp [mainModel, runStoreOk, hjp, hkr]
      | ok kr =>
        cases h : (dedupStep env.translate env.nowIso (load_sent_storage env.storedFile) (jp ++ kr)).2.isEmpty with
        | true => simp [mainModel, runStoreOk, hjp, hkr, h]
        | false =>
          have hk := dedupStep_keys env.translate env.nowIso (jp ++ kr) (load_sent_storage env.storedFile)
          simp [mainModel, runStoreOk, hjp, hkr, h, send_to_telegram_urls]
          exact hk

/-- Claim C2, corrected at this input: with the Japanese listing fetch
failing and the Korean source holding one fresh, in-window, unseen article,
the whole run aborts with the Japanese fetch error — the Korean article,
which collection alone would have delivered, is never dispatched. -/
theorem claim_C2_counterexample :
    mainModel envC2 = Except.error "boom"
    ∧ collect_recent_articles_kr_ai envC2.krListing envC2.krDetail envC2.krBase
        envC2.uj envC2.now_local = Except.ok [itemKrOne] := ⟨rfl, rfl⟩

/-- Claim C2 as amended: a listing-page fetch failure for either source is
not caught anywhere, so it aborts the entire run — the other source is not
processed and nothing at all is dispatched. -/
theorem claim_C2_amended :
    (∀ (env : MainEnv) (e : String),
        mainModel { env with jpListing := Except.error e } = Except.error e)
    ∧ (∀ (env : MainEnv) (doc : List Tag) (e : String),
        mainModel { env with jpListing := Except.ok doc, krListing := Except.error e }
          = Except.error e)
    ∧ (∀ (env : MainEnv) (e : String),
        dispatchedUrls (mainModel { env with jpListing := Except.error e }) = []) := by
  refine ⟨?_, ?_, ?_⟩
  · intro env e
    obtain ⟨sf, jl, jd, kl, kd, jb, kb, uj, nl, tr, ni, dis⟩ := env
    simp [mainModel, collect_recent_articles_jp]
  · intro env doc e
    obtain ⟨sf, jl, jd, kl, kd, jb, kb, uj, nl, tr, ni, dis⟩ := env
    simp [mainModel, collect_recent_articles_jp, collect_recent_articles_kr_ai]
  · intro env e
    obtain ⟨sf, jl, jd, kl, kd, jb, kb, uj, nl, tr, ni, dis⟩ := env
    simp [mainModel, collect_recent_articles_jp, dispatchedUrls]

/-- Claim C3, corrected at this input: a persisted file holding the bare JSON
array `["https://japan.zdnet.com/article/1/"]` loads as the empty store — the
url it lists is not contained in the result, because `load_sent_storage`
accepts only the object shape. -/
theorem claim_C3_counterexample :
    load_sent_storage (some (Except.ok
        (JValue.jarr [JValue.jstr "https://japan.zdnet.com/article/1/"]))) = []
    ∧ hasKey (load_sent_storage (some (Except.ok
        (JValue.jarr [JValue.jstr "https://japan.zdnet.com/article/1/"]))))
        "https://japan.zdnet.com/article/1/" = false := ⟨rfl, rfl⟩

/-- Claim C3 as amended: on read, only the url-to-timestamp object shape is
accepted; a bare JSON array of url strings (like every other non-object
document) yields the empty store. -/
theorem claim_C3_amended :
    (∀ xs : List JValue, load_sent_storage (some (Except.ok (JValue.jarr xs))) = [])
    ∧ (∀ kvs : List (String × JValue),
        load_sent_storage (some (Except.ok (JValue.jobj kvs))) = kvs) :=
  ⟨fun _ => rfl, fun _ => rfl⟩

/-- Claim C4, confirmed: with timestamps as minutes on the absolute timeline,
the recency filter includes a timestamp iff it lies in the closed window
from 24 hours (1440 minutes) before the reference time up to the reference
time — both bounds inclusive, one minute before the window excluded — and a
missing timestamp is always excluded. -/
theorem claim_C4_confirmed :
    (∀ t now_local : Int,
        is_within_last_24h (some t) now_local = true
          ↔ (now_local - 1440 ≤ t ∧ t ≤ now_local))
    ∧ (∀ now_local : Int, is_within_last_24h (some (now_local - 1440)) now_local = true)
    ∧ (∀ now_local : Int, is_within_last_24h (some (now_local - 1441)) now_local = false)
    ∧ (∀ now_local : Int, is_within_last_24h none now_local = false) := by
  refine ⟨fun t now => ?_, fun now => ?_, fun now => ?_, fun now => rfl⟩
  · simp [is_within_last_24h]
  · simp [is_within_last_24h]
    try omega
  · simp [is_within_last_24h]
    try omega

/-- Claim C5, corrected at this input: `save_sent_storage` opens the storage
file with mode "w", so the empty content — neither the prior content nor the
new payload — and the truncated prefix "NE" of the payload are observable
on-disk states; under the spec's atomic write-then-replace discipline the
empty state could not occur. -/
theorem claim_C5_counterexample :
    (([] : List Char) ∈ save_sent_storage_states "OLD".toList "NEW".toList)
    ∧ (([] : List Char) ∉ spec_atomic_replace_states "OLD".toList "NEW".toList)
    ∧ ("NE".toList ∈ save_sent_storage_states "OLD".toList "NEW".toList) := by
  refine ⟨?_, ?_, ?_⟩ <;> decide

/-- Claim C5 as amended: save writes the full state directly into the storage
file (truncate, then stream the payload); every observable on-disk state is
either the prior content or some prefix of the new payload — so an
interrupted save can leave an empty or truncated file — and the completed
write leaves exactly the full payload. -/
theorem claim_C5_amended :
    ∀ old payload : List Char,
      ((save_sent_storage_states old payload).all
          (fun s => s == old || s.isPrefixOf payload) = true)
      ∧ payload ∈ save_sent_storage_states old payload := by
  intro old payload
  constructor
  · refine List.all_eq_true.mpr ?_
    intro s hs
    simp only [save_sent_storage_states, prefixesUpTo, List.mem_cons, List.mem_map,
      List.mem_range] at hs
    rcases hs with h | ⟨k, hk, rfl⟩
    · simp [h]
    · simp [take_isPrefixOf_self]
  · simp only [save_sent_storage_states, prefixesUpTo, List.mem_cons, List.mem_map,
      List.mem_range]
    right
    exact ⟨payload.length, by omega, by simp⟩

/-- Claim C6, corrected at this input: a decorative anchor with the short
text "tiny" lies strictly between the section boundaries, yet extraction
drops it — the result is not exactly the anchors of the bounded region, the
length filter also applies. -/
theorem claim_C6_counterexample :
    (extract_new_articles_jp_list docC6x "" (fun _ h => h)).map
        (fun it => (it.title_ja_raw.getD "", it.url)) = [("Long Enough Title", "/a2")]
    ∧ (sectionAnchors jpHeaderPred jpStopPred docC6x).map (fun a => (a.text, a.href))
        = [("tiny", "/a1"), ("Long Enough Title", "/a2")] := ⟨rfl, rfl⟩

/-- Claim C6 as amended: extraction returns, in document order, exactly the
accepted anchors of the siblings strictly between the start-matching element
and the first subsequent stop-matching element (or the document's end),
where acceptance additionally requires a non-empty anchor text of at least 8
characters for the Japanese source, and a href containing "/view/?no=" with
non-empty text for the Korean source; on the spec's H1[A1,A2] H2[B1] test
document the result is exactly the items of A1 and A2. -/
theorem claim_C6_amended :
    (∀ (doc : List Tag) (base : String) (uj : String → String → String),
        extract_new_articles_jp_list doc base uj
          = (sectionAnchors jpHeaderPred jpStopPred doc).filterMap (jpAnchorItem base uj))
    ∧ (∀ (doc : List Tag) (base : String) (uj : String → String → String),
        extract_new_articles_kr_ai_list doc base uj
          = (sectionAnchors krHeaderPred krStopPred doc).filterMap (krAnchorItem base uj))
    ∧ extract_new_articles_jp_list docC6 "B" (fun b h => b ++ h)
        = [⟨"zdnet_jp", some "Article One Title", some "Article One Title", none, "B/a1", none⟩,
           ⟨"zdnet_jp", some "Article Two Title", some "Article Two Title", none, "B/a2", none⟩] := by
  refine ⟨?_, ?_, rfl⟩
  · intro doc base uj
    cases hf : findAfter jpHeaderPred doc with
    | none => simp [extract_new_articles_jp_list, sectionAnchors, hf]
    | some rest =>
      simp [extract_new_articles_jp_list, sectionAnchors, hf, sectionLoop_eq_anchors]
  · intro doc base uj
    cases hf : findAfter krHeaderPred doc with
    | none => simp [extract_new_articles_kr_ai_list, sectionAnchors, hf]
    | some rest =>
      simp [extract_new_articles_kr_ai_list, sectionAnchors, hf, sectionLoop_eq_anchors]

/-- Claim C7, corrected at this input: for an anchor text ending in the
inline pattern, the suffix is stripped from the title but its value is not
used as the timestamp — collection takes the timestamp from the article's
detail page, so an anchor saying "2025-11-16 08:00" paired with a page
saying "2025-11-20 09:30" yields the page's value, not the suffix's. -/
theorem claim_C7_counterexample :
    clean_title_jp "Some Title 2025-11-16 08:00" = "Some Title"
    ∧ collect_recent_articles_jp (Except.ok docJpOne) (fun _ => some jpPageLate) ""
        (fun b h => b ++ h) (dtToMin ⟨2025, 11, 20, 9, 30⟩) = Except.ok [itemJpOne]
    ∧ itemJpOne.published_at = some ⟨2025, 11, 20, 9, 30⟩
    ∧ ¬ itemJpOne.published_at = some ⟨2025, 11, 16, 8, 0⟩ :=
  ⟨rfl, rfl, rfl, by decide⟩

/-- Claim C7 as amended: the date/time suffix at the end of the raw anchor
text is stripped off to form the cleaned title and its value discarded; the
timestamp is resolved separately by fetching the article page and parsing
the first occurrence of the same fixed pattern there, failure (no fetch, no
pattern, invalid calendar values) yielding no timestamp: "Some Title
2025-11-16 08:00" cleans to "Some Title", and a page containing
"2025-11-16 08:00" resolves to 2025-11-16T08:00 (a naive value the pipeline
interprets at the source's fixed +9 offset). -/
theorem claim_C7_amended :
    clean_title_jp "Some Title 2025-11-16 08:00" = "Some Title"
    ∧ clean_title_jp "No stamp here" = "No stamp here"
    ∧ fetch_published_at_jp (some ["公開: 2025-11-16 08:00 更新"]) = some ⟨2025, 11, 16, 8, 0⟩
    ∧ fetch_published_at_jp (some ["公開: 2025-13-40 08:00"]) = none
    ∧ fetch_published_at_jp none = none :=
  ⟨rfl, rfl, rfl, rfl, rfl⟩

/-- Claim C8, confirmed: a Korean detail page containing the byline
"입력 :2025/11/14 17:46    수정: 2025/11/14 17:48" resolves to
2025-11-14T17:46 — the 수정 (modified) value is ignored — while a missing
marker, invalid calendar values, or a failed fetch all yield no timestamp
rather than an error. -/
theorem claim_C8_confirmed :
    fetch_published_at_kr (some krPageOne) = some ⟨2025, 11, 14, 17, 46⟩
    ∧ fetch_published_at_kr (some ["수정: 2025/11/14 17:48"]) = none
    ∧ fetch_published_at_kr (some ["입력 :2025/13/40 17:46"]) = none
    ∧ fetch_published_at_kr none = none :=
  ⟨rfl, rfl, rfl, rfl⟩

/-- Claim C9, confirmed: a storage file whose bytes cannot be parsed (the
embedded `Except.error` of `json.load` raising) loads as the empty store for
every error, and so does a missing file; `load_sent_storage` is total, no
exception escapes. -/
theorem claim_C9_confirmed :
    (∀ msg : String, load_sent_storage (some (Except.error msg)) = [])
    ∧ load_sent_storage none = [] :=
  ⟨fun _ => rfl, rfl⟩

/-- Claim C10, confirmed: in every run, the batch handed to the dispatcher
carries pairwise-distinct urls — a url is entered into the in-memory store
the moment its first candidate is accepted, so every later same-url
candidate of the run is skipped before dispatch. -/
theorem claim_C10_confirmed :
    ∀ env : MainEnv, (dispatchedUrls (mainModel env)).Nodup := by
  intro env
  cases hjp : collect_recent_articles_jp env.jpListing env.jpDetail env.jpBase env.uj env.now_local with
  | error e => simp [mainModel, dispatchedUrls, hjp]
  | ok jp =>
    cases hkr : collect_recent_articles_kr_ai env.krListing env.krDetail env.krBase env.uj env.now_local with
    | error e => simp [mainModel, dispatchedUrls, hjp, hkr]
    | ok kr =>
      cases h : (dedupStep env.translate env.nowIso (load_sent_storage env.storedFile) (jp ++ kr)).2.isEmpty with
      | true => simp [mainModel, dispatchedUrls, hjp, hkr, h]
      | false =>
        have hn := (dedupStep_fresh env.translate env.nowIso (jp ++ kr) (load_sent_storage env.storedFile)).1
        simp [mainModel, dispatchedUrls, hjp, hkr, h, send_to_telegram_urls]
        exact hn
